import Mathlib

/-!
Verification of the repotool repository manager (conqp/repotool).

The development shallowly embeds the core of the tool: the package-identity
model (`Version`, `PackageInfo`, the file-name grammar and its regexes), the
`is_other_version_of` relation, and the repository mutation workflow
(`_copy_pkg`, `add`, `isolate`, `packages`, `packages_for_base`,
`add_packages`).  File names are modelled as `String`s (lists of
characters), the repository base directory as the list of file names it
contains, and external subprocesses (gpg, repo-add) as an environment of
success flags plus an event log in the state.
-/

namespace Repotool

/-- A package version as in `repotool/version.py`: an upstream version
string plus an integer build counter (`Version(version, int(build))`). -/
structure Version where
  version : String
  build : Int
deriving DecidableEq

/-- Equality of versions as implemented by `Version.__eq__` in
`repotool/version.py`: componentwise equality of the upstream string and
the build number (the external comparator is not consulted). -/
def Version.eqb (a b : Version) : Bool :=
  a.version == b.version && a.build == b.build

/-- Python `!=` on versions: the negation of `Version.__eq__`. -/
def Version.neb (a b : Version) : Bool :=
  !(Version.eqb a b)

/-- Strict order of versions as implemented by `Version.__lt__` in
`repotool/version.py`, parameterised by the external comparator `cmp`
(the `/usr/bin/vercmp` subprocess): if the comparator reports 0 on the
upstream strings the build numbers break the tie, otherwise the result is
whether the comparator reported -1. -/
def Version.ltb (cmp : String → String → Int) (a b : Version) : Bool :=
  if cmp a.version b.version == 0 then decide (a.build < b.build)
  else cmp a.version b.version == -1

/-- Greater-than of versions as derived by `functools.total_ordering` from
`__lt__` and `__eq__`: `a > b` is `not (a < b or a == b)`. -/
def Version.gtb (cmp : String → String → Int) (a b : Version) : Bool :=
  !(Version.ltb cmp a b || Version.eqb a b)

/-- The package information record of `repotool/package.py`
(`PackageInfo`): package base name, version, architecture and optional
compression suffix. -/
structure PackageInfo where
  pkgbase : String
  version : Version
  arch : String
  compression : Option String
deriving DecidableEq

/-- The relation `PackageFile.is_other_version_of` from
`repotool/package.py` (lines 74-87), transcribed onto the identity
records: an early `False` when the package bases differ, then `True` when
the versions differ, then `True` when the compressions differ, else
`False`. -/
def isOtherVersionOf (self other : PackageInfo) : Bool :=
  if self.pkgbase != other.pkgbase then false
  else if Version.neb self.version other.version then true
  else if self.compression != other.compression then true
  else false

/-- Boolean test that `pat` is a prefix of `s`, by structural recursion on
character lists. -/
def pfxOf : List Char → List Char → Bool
  | [], _ => true
  | _ :: _, [] => false
  | p :: ps, c :: cs => p == c && pfxOf ps cs

/-- Boolean test that `pat` is a suffix of `s` (prefix of the reversals). -/
def endsSeq (pat s : List Char) : Bool :=
  pfxOf pat.reverse s.reverse

/-- Boolean test that `pat` occurs contiguously inside `s`. -/
def containsSeq (pat : List Char) : List Char → Bool
  | [] => pfxOf pat []
  | c :: cs => pfxOf pat (c :: cs) || containsSeq pat cs

/-- Splits `l` at the first occurrence of `c`: returns the (c-free) part
before and the part after it, or `none` when `c` does not occur. -/
def breakAtFirst (c : Char) : List Char → Option (List Char × List Char)
  | [] => none
  | x :: xs =>
    if x == c then some ([], xs)
    else
      match breakAtFirst c xs with
      | none => none
      | some (a, b) => some (x :: a, b)

/-- Splits `l` at its last `'-'`: the part before and the (hyphen-free)
part after, mirroring one step of Python's `str.rsplit('-', ...)`. -/
def splitLastHyphen (l : List Char) : Option (List Char × List Char) :=
  match breakAtFirst '-' l.reverse with
  | none => none
  | some (a, b) => some (b.reverse, a.reverse)

/-- Python `name.rsplit('-', maxsplit=3)` unpacked into exactly four
parts: `none` when the name holds fewer than three hyphens (in which case
the four-name unpacking in `get_package_info` raises `ValueError`). -/
def rsplit3 (l : List Char) : Option (List Char × List Char × List Char × List Char) :=
  match splitLastHyphen l with
  | none => none
  | some (r1, p4) =>
    match splitLastHyphen r1 with
    | none => none
    | some (r2, p3) =>
      match splitLastHyphen r2 with
      | none => none
      | some (p1, p2) => some (p1, p2, p3, p4)

/-- Whether `l` is a nonempty run of decimal digits. -/
def allDigits (l : List Char) : Bool :=
  !l.isEmpty && l.all (fun c => c.isDigit)

/-- The numeric value of a run of decimal digits. -/
def natOfDigits (l : List Char) : Nat :=
  l.foldl (fun n c => n * 10 + (c.toNat - 48)) 0

/-- Python `int(...)` on the build component: an optional sign followed by
digits parses to an integer, anything else raises `ValueError` (`none`). -/
def pyInt? (l : List Char) : Option Int :=
  match l with
  | '-' :: ds => if allDigits ds then some (-(natOfDigits ds : Int)) else none
  | '+' :: ds => if allDigits ds then some ((natOfDigits ds : Int)) else none
  | ds => if allDigits ds then some ((natOfDigits ds : Int)) else none

/-- The architecture alternatives of the `SUFFIX` regex in
`repotool/package.py`: `(x86_64|i686|any)`. -/
def archs : List String := ["x86_64", "i686", "any"]

/-- The alternatives of the optional compression group of `SUFFIX`,
`(\.(xz,gz,zst,bz2,lzop))?`: the group is absent, or it matches the
literal text `.xz,gz,zst,bz2,lzop` — the commas in the source regex are
literal characters, not alternation, so no individual compression suffix
such as `.zst` is matched by this group. -/
def modernComps : List String := ["", ".xz,gz,zst,bz2,lzop"]

/-- The possible tails of a full match of `REGEX = '^.+-' + SUFFIX` from
`repotool/package.py`: a hyphen, an architecture, `.pkg.tar` and an
alternative of the compression group. -/
def modernTails : List String :=
  archs.flatMap (fun a => modernComps.map (fun c => "-" ++ a ++ ".pkg.tar" ++ c))

/-- Full match of `REGEX` on a character list: the string decomposes as a
nonempty prefix (the `.+`) followed by one of the possible tails. -/
def isPackModL (l : List Char) : Bool :=
  modernTails.any (fun t => endsSeq t.data l && decide (t.data.length < l.length))

/-- `is_package` of `repotool/package.py`: whether
`re.fullmatch(REGEX, str(package))` succeeds.  The source applies the
regex to the whole path; it is modelled here on the file name, which
coincides for files inside a fixed base directory. -/
def isPackageModern (s : String) : Bool :=
  isPackModL s.data

/-- `get_package_info` of `repotool/package.py` (lines 90-97).  It rsplits
the file name on the last three hyphens (unpacking into four names, a
`ValueError` when there are fewer), converts the build with `int(...)`
(a `ValueError` when non-numeric), and then executes
`arch, compression = fullmatch(SUFFIX, arch_suffix)` — which always
raises a `TypeError`: a `re.Match` object is not iterable, and neither is
`None` when the suffix (for example one with a real compression such as
`.zst`, which `SUFFIX` cannot match) fails to match.  The function
therefore never returns a `PackageInfo`. -/
def getPackageInfo (name : String) : Option PackageInfo :=
  match rsplit3 name.data with
  | none => none
  | some (_pkgbase, _version, build, _archSfx) =>
    match pyInt? build with
    | none => none
    | some _build => none

/-- A parsed identity following the specification grammar
`pkgbase-version[-build]-architecture.pkg.tar[.compression]` with its
closed compression set; used to compare the code's classification against
the specified one. -/
structure SpecId where
  pkgbase : String
  version : String
  build : Option Nat
  arch : String
  compression : Option String
deriving DecidableEq

/-- The compression suffixes of the specification's closed set, including
the empty (absent) one. -/
def specComps : List (Option String) :=
  [none, some "gz", some "xz", some "zst", some "bz2", some "lzop"]

/-- First `some` produced by `f` along a list. -/
def firstSome? {α β : Type} (f : α → Option β) : List α → Option β
  | [] => none
  | a :: as =>
    match f a with
    | some b => some b
    | none => firstSome? f as

/-- Modelled from the spec: strips the grammar tail
`-<architecture>.pkg.tar[.<compression>]` off a file name, returning the
remaining head together with the architecture and compression. -/
def specTail? (l : List Char) : Option (List Char × String × Option String) :=
  firstSome?
    (fun ac =>
      let t := "-" ++ ac.1 ++ ".pkg.tar" ++ (match ac.2 with | none => "" | some c => "." ++ c)
      if endsSeq t.data l && decide (t.data.length < l.length) then
        some (l.take (l.length - t.data.length), ac.1, ac.2)
      else none)
    (archs.flatMap (fun a => specComps.map (fun c => (a, c))))

/-- Modelled from the spec: parses a file name along the specification
grammar `<pkgbase>-<version>[-<build>]-<architecture>.pkg.tar[.<compression>]`.
After the tail is stripped, the head splits from the right into
`pkgbase-version-build` when the last segment is numeric and a version
segment remains, else into `pkgbase-version`; non-matching names yield
`none`. -/
def specParse (name : String) : Option SpecId :=
  match specTail? name.data with
  | none => none
  | some (head, arch, comp) =>
    match splitLastHyphen head with
    | none => none
    | some (h1, seg) =>
      if allDigits seg then
        match splitLastHyphen h1 with
        | some (pb, ver) =>
          if pb.isEmpty || ver.isEmpty then none
          else some ⟨String.mk pb, String.mk ver, some (natOfDigits seg), arch, comp⟩
        | none =>
          if h1.isEmpty then none
          else some ⟨String.mk h1, String.mk seg, none, arch, comp⟩
      else
        if h1.isEmpty || seg.isEmpty then none
        else some ⟨String.mk h1, String.mk seg, none, arch, comp⟩

/-- Modelled from the spec: whether a file name matches the specification
grammar of package-archive names. -/
def specIsPackage (name : String) : Bool :=
  (specParse name).isSome

/-- Modelled from the spec: the external `/usr/bin/vercmp` comparator
contract ("numeric-segment aware"), restricted to dotted all-numeric
version strings: segments between dots are compared as numbers, so
leading zeros are insignificant (`vercmp 1.0 1.00` prints `0`). -/
def vercmpNum (a b : String) : Int :=
  cmpSegs ((splitDots a.data).map natOfDigits) ((splitDots b.data).map natOfDigits)
where
  /-- Splits a character list on `'.'`. -/
  splitDots : List Char → List (List Char)
    | [] => [[]]
    | c :: cs =>
      if c == '.' then [] :: splitDots cs
      else
        match splitDots cs with
        | [] => [[c]]
        | s :: ss => (c :: s) :: ss
  /-- Lexicographic three-way comparison of numeric segment lists; a
  longer list wins over its own proper prefix. -/
  cmpSegs : List Nat → List Nat → Int
    | [], [] => 0
    | [], _ :: _ => -1
    | _ :: _, [] => 1
    | a :: as, b :: bs =>
      if a < b then -1 else if b < a then 1 else cmpSegs as bs

/-- A repository as in `repotool/repository.py` (the `basedir` path is
implicit: the directory contents are carried by the state, see `St`). -/
structure Repository where
  name : String
  dbext : String
  sign : Bool
  target : Option String
deriving DecidableEq

/-- The `database` property: the database file name `name + dbext`. -/
def Repository.database (r : Repository) : String :=
  r.name ++ r.dbext

/-- The path of a package's detached signature (`signature` in
`repotool/package.py`): the package path with `.sig` appended. -/
def sigName (n : String) : String :=
  n ++ ".sig"

/-- The glob `'{pkgbase}-' + GLOB` with `GLOB = '*.pkg.tar*'` used by
`packages_for_base`: the name starts with the base followed by a hyphen
and the remainder contains `.pkg.tar`.  (`repotool/package.py` does not
actually define the imported name `GLOB`; the value is the `PKG_GLOB`
of the sibling single-file variant `repotool.py`, which runs the same
enumeration.) -/
def baseGlob (base name : String) : Bool :=
  pfxOf (base.data ++ ['-']) name.data &&
    containsSeq ".pkg.tar".data (name.data.drop (base.data.length + 1))

/-- The glob `GLOB = '*.pkg.tar*'` used by the `packages` property: the
name contains `.pkg.tar`. -/
def pkgGlob (name : String) : Bool :=
  containsSeq ".pkg.tar".data name.data

/-- `Repository.packages`: the directory entries matching the glob for
which `is_package` returns a match; non-matching entries are skipped. -/
def packagesList (files : List String) : List String :=
  files.filter (fun n => pkgGlob n && isPackageModern n)

/-- `Repository.packages_for_base`: the directory entries matching the
pkgbase-anchored glob for which `is_package` returns a match. -/
def packagesForBase (base : String) (files : List String) : List String :=
  files.filter (fun n => baseGlob base n && isPackageModern n)

/-- `Repository.isolate` (`repotool/repository.py` lines 81-92),
parameterised by the identity oracle `ident` mapping a file name to its
`PackageInfo` (in the sources the identity comes either from the external
metadata query `pacman -Qp` of the single-file variant or from the
file-name parse of `repotool/package.py`).  Every enumerated candidate of
the reference's pkgbase for which `is_other_version_of(package)` holds is
unlinked together with its signature file when present; the surviving
directory contents are returned. -/
def isolate (ident : String → PackageInfo) (pkgName : String) (files : List String) : List String :=
  let doomed := (packagesForBase (ident pkgName).pkgbase files).filter
    (fun n => isOtherVersionOf (ident n) (ident pkgName))
  files.filter (fun f => !(decide (f ∈ doomed)) && !(doomed.any (fun d => f == sigName d)))

/-- Outcomes of the Python exceptions relevant to the workflow:
`KeyError`, `KeyboardInterrupt`, `subprocess.CalledProcessError` (a
failing `check_call`) and `FileNotFoundError` (from `shutil.copy2` on a
missing source file). -/
inductive Err where
  | keyError
  | keyboardInterrupt
  | calledProcess
  | fileNotFound
deriving DecidableEq

/-- Success flags of the external subprocesses: whether the
`gpg --detach-sign` call and the `repo-add` call exit successfully. -/
structure ExtEnv where
  gpgOk : Bool
  repoAddOk : Bool
deriving DecidableEq

/-- The mutable world of one run: the file names present in the
repository's base directory, whether the detached signature exists next
to the source package, the number of gpg invocations, and the sign flags
of the `repo-add` invocations made so far. -/
structure St where
  files : List String
  srcSig : Bool
  gpgCalls : Nat
  inserts : List Bool
deriving DecidableEq

/-- Adds a file name to a directory listing; copying a file onto itself
(`shutil.SameFileError`) is suppressed in the source, so an already
present name is left as is. -/
def insertName (n : String) (files : List String) : List String :=
  if files.contains n then files else files ++ [n]

/-- `Repository._copy_pkg` (`repotool/repository.py` lines 59-73).  When
`sign` is set, gpg is invoked (a pre-existing signature only triggers a
warning) and a failing gpg aborts with `CalledProcessError`; on success
the detached signature exists at the source.  The package file is then
copied into the base directory, and then the signature file is copied —
`copy2` raises `FileNotFoundError` when the signature file does not
exist, since only `SameFileError` is suppressed. -/
def copyPkg (env : ExtEnv) (pkgName : String) (sgn : Bool) (st : St) : St × Option Err :=
  let st1 := if sgn then { st with gpgCalls := st.gpgCalls + 1 } else st
  if sgn && !env.gpgOk then (st1, some .calledProcess)
  else
    let st2 := if sgn then { st1 with srcSig := true } else st1
    let st3 := { st2 with files := insertName pkgName st2.files }
    if st3.srcSig then
      ({ st3 with files := insertName (sigName pkgName) st3.files }, none)
    else (st3, some .fileNotFound)

/-- `Repository.add` (`repotool/repository.py` lines 94-108): the
effective sign flag is `sign or self.sign`; `_copy_pkg` runs first; then
`repo-add` is invoked on the database and the package name (with
`--sign` appended when the effective flag is set, recorded in
`inserts`), rewriting the database file on success; finally, when
`clean` is set, `isolate` prunes the directory. -/
def add (env : ExtEnv) (ident : String → PackageInfo) (repo : Repository)
    (pkgName : String) (sgn clean : Bool) (st : St) : St × Option Err :=
  match copyPkg env pkgName (sgn || repo.sign) st with
  | (st1, some e) => (st1, some e)
  | (st1, none) =>
    if !env.repoAddOk then
      ({ st1 with inserts := st1.inserts ++ [sgn || repo.sign] }, some .calledProcess)
    else if clean then
      ({ st1 with
          files := isolate ident pkgName (insertName repo.database st1.files),
          inserts := st1.inserts ++ [sgn || repo.sign] }, none)
    else
      ({ st1 with
          files := insertName repo.database st1.files,
          inserts := st1.inserts ++ [sgn || repo.sign] }, none)

/-- `add_package` of `repotool/functions.py`: adds one package to every
repository in turn; the first uncaught exception aborts the remaining
repositories. -/
def addPackage (env : ExtEnv) (ident : String → PackageInfo) :
    List Repository → String → Bool → Bool → St → St × Option Err
  | [], _, _, _, st => (st, none)
  | r :: rs, p, sgn, clean, st =>
    match add env ident r p sgn clean st with
    | (st1, none) => addPackage env ident rs p sgn clean st1
    | (st1, some e) => (st1, some e)

/-- `add_packages` of `repotool/functions.py` (lines 59-80): the
per-package loop guards each `add_package` with
`except KeyError` and `except KeyboardInterrupt`, counting the package
as failed and continuing; any other exception propagates out of the loop
(third component `some e`), in which case the remaining packages are not
processed and no error count is returned. -/
def addPackages (env : ExtEnv) (ident : String → PackageInfo) (repos : List Repository) :
    List String → Bool → Bool → St → St × Nat × Option Err
  | [], _, _, st => (st, 0, none)
  | p :: ps, sgn, clean, st =>
    match addPackage env ident repos p sgn clean st with
    | (st1, none) => addPackages env ident repos ps sgn clean st1
    | (st1, some .keyError) =>
      let (st2, n, e) := addPackages env ident repos ps sgn clean st1
      (st2, n + 1, e)
    | (st1, some .keyboardInterrupt) =>
      let (st2, n, e) := addPackages env ident repos ps sgn clean st1
      (st2, n + 1, e)
    | (st1, some e) => (st1, 0, some e)

/-- A fixed identity oracle used for concrete instances: every file name
is its own pkgbase with a fixed version. -/
def constIdent : String → PackageInfo :=
  fun n => { pkgbase := n, version := ⟨"1", 0⟩, arch := "any", compression := none }

/-- A concrete package identity used by witnesses. -/
def pInfoEx : PackageInfo :=
  { pkgbase := "foo", version := ⟨"1.0", 1⟩, arch := "x86_64", compression := some "zst" }

/-- The relation `is_other_version_of` evaluates to `false` whenever the
two identities agree on pkgbase, version and compression. -/
theorem isOtherVersionOf_eq_false_of_agree (a b : PackageInfo)
    (h1 : a.pkgbase = b.pkgbase) (h2 : a.version = b.version)
    (h3 : a.compression = b.compression) : isOtherVersionOf a b = false := by
  simp [isOtherVersionOf, h1, h2, h3, Version.neb, Version.eqb]

/-- The six possible tails of a `REGEX` full match, evaluated. -/
theorem modernTails_eval :
    modernTails = ["-x86_64.pkg.tar", "-x86_64.pkg.tar.xz,gz,zst,bz2,lzop",
      "-i686.pkg.tar", "-i686.pkg.tar.xz,gz,zst,bz2,lzop",
      "-any.pkg.tar", "-any.pkg.tar.xz,gz,zst,bz2,lzop"] := by
  decide

/-- No name ending in `.sig` matches the package regex `REGEX`. -/
theorem isPackModL_sig (l : List Char) : isPackModL (l ++ ['.', 's', 'i', 'g']) = false := by
  have hrev : (l ++ ['.', 's', 'i', 'g']).reverse = 'g' :: 'i' :: 's' :: '.' :: l.reverse := by
    rw [List.reverse_append]
    rfl
  simp only [isPackModL, modernTails_eval, List.any_cons, List.any_nil, endsSeq, hrev]
  rfl

/-- No signature path (a path with `.sig` appended) matches the package
regex `REGEX`. -/
theorem isPackageModern_sigName (d : String) : isPackageModern (sigName d) = false := by
  have hdata : (sigName d).data = d.data ++ ['.', 's', 'i', 'g'] := rfl
  rw [isPackageModern, hdata, isPackModL_sig]

/-- Membership in a directory listing after `insertName`. -/
theorem mem_insertName (f n : String) (l : List String) :
    f ∈ insertName n l ↔ f = n ∨ f ∈ l := by
  unfold insertName
  split
  next h =>
    constructor
    · exact Or.inr
    · rintro (rfl | hf)
      · exact List.mem_of_elem_eq_true h
      · exact hf
  next h =>
    rw [List.mem_append, List.mem_singleton, or_comm]

/-- C5: for all packages A and B, `B.is_other_version_of(A)` holds iff
they share the pkgbase and their versions or their compression suffixes
differ; when pkgbase, version and compression all coincide the relation
is `false`. -/
theorem c5_is_other_version_iff : ∀ a b : PackageInfo,
    (isOtherVersionOf b a =
      (b.pkgbase == a.pkgbase &&
        (Version.neb b.version a.version || b.compression != a.compression))) ∧
    (a.pkgbase = b.pkgbase → a.version = b.version → a.compression = b.compression →
      isOtherVersionOf b a = false) := by
  intro a b
  constructor
  · cases hp : b.pkgbase == a.pkgbase <;> cases hb : Version.eqb b.version a.version <;>
      cases hc : b.compression == a.compression <;>
      simp [isOtherVersionOf, Version.neb, bne, hp, hb, hc]
  · intro h1 h2 h3
    exact isOtherVersionOf_eq_false_of_agree b a h1.symm h2.symm h3.symm

/-- Witness for C5 at the concrete identity `pInfoEx`. -/
theorem c5_witness :
    (isOtherVersionOf pInfoEx pInfoEx =
      (pInfoEx.pkgbase == pInfoEx.pkgbase &&
        (Version.neb pInfoEx.version pInfoEx.version ||
          pInfoEx.compression != pInfoEx.compression))) ∧
    isOtherVersionOf pInfoEx pInfoEx = false :=
  ⟨(c5_is_other_version_iff pInfoEx pInfoEx).1,
    (c5_is_other_version_iff pInfoEx pInfoEx).2 rfl rfl rfl⟩

/-- C8 (amended): less-than and (via `total_ordering`) greater-than are
derived from the external comparator with the build number breaking
upstream ties, but equality is structural — upstream strings and builds
componentwise equal — not comparator-derived. -/
theorem c8_version_order :
    ∀ (cmp : String → String → Int) (a b : Version),
      (Version.ltb cmp a b = true ↔
        (cmp a.version b.version = -1 ∨
          (cmp a.version b.version = 0 ∧ a.build < b.build))) ∧
      (Version.eqb a b = true ↔ a = b) ∧
      (Version.gtb cmp a b = true ↔
        (Version.ltb cmp a b = false ∧ ¬ a = b)) := by
  intro cmp a b
  have heq : Version.eqb a b = true ↔ a = b := by
    cases a
    cases b
    simp [Version.eqb, Version.mk.injEq]
  refine ⟨?_, heq, ?_⟩
  · unfold Version.ltb
    split
    next h =>
      rw [beq_iff_eq] at h
      simp [h, decide_eq_true_iff]
    next h =>
      rw [beq_iff_eq] at h
      simp [h, beq_iff_eq]
  · rw [Version.gtb, Bool.not_eq_true', Bool.or_eq_false_iff]
    have hne : Version.eqb a b = false ↔ ¬ a = b := by
      rw [Bool.eq_false_iff]
      exact not_congr heq
    rw [hne]

/-- Counterexample for C8 as stated: the comparator (modelled by
`vercmpNum`, numeric-segment aware like `vercmp`, for which
`vercmp 1.0 1.00` prints `0`) reports the upstream strings EQUAL and the
builds are equal, yet `Version.__eq__` is `false` because the upstream
strings differ as strings. -/
theorem c8_counterexample :
    ¬ (Version.eqb ⟨"1.0", 1⟩ ⟨"1.00", 1⟩ = true ↔
        (vercmpNum "1.0" "1.00" = 0 ∧
          Version.build ⟨"1.0", 1⟩ = Version.build ⟨"1.00", 1⟩)) := by
  decide

/-- C1: `is_other_version_of` is irreflexive, and `isolate` keeps the
reference package's file and every candidate agreeing with the reference
on pkgbase, version and compression, for any identity oracle and any
directory contents. -/
theorem c1_isolate_keeps_reference :
    ∀ (ident : String → PackageInfo) (files : List String) (refName : String),
      (∀ p : PackageInfo, isOtherVersionOf p p = false) ∧
      (isPackageModern refName = true → refName ∈ files →
        refName ∈ isolate ident refName files) ∧
      (∀ n, n ∈ files → isPackageModern n = true →
        (ident n).pkgbase = (ident refName).pkgbase →
        (ident n).version = (ident refName).version →
        (ident n).compression = (ident refName).compression →
        n ∈ isolate ident refName files) := by
  have key : ∀ (ident : String → PackageInfo) (files : List String) (refName n : String),
      n ∈ files → isPackageModern n = true →
      isOtherVersionOf (ident n) (ident refName) = false →
      n ∈ isolate ident refName files := by
    intro ident files refName n hmem hpk hno
    unfold isolate
    rw [List.mem_filter]
    refine ⟨hmem, ?_⟩
    rw [Bool.and_eq_true]
    constructor
    · rw [Bool.not_eq_true', decide_eq_false_iff_not]
      intro hd
      have hother := (List.mem_filter.mp hd).2
      rw [hno] at hother
      exact Bool.false_ne_true hother
    · rw [Bool.not_eq_true']
      rw [List.any_eq_false]
      intro d _ hbeq
      rw [eq_of_beq hbeq, isPackageModern_sigName] at hpk
      exact Bool.false_ne_true hpk
  intro ident files refName
  refine ⟨fun p => isOtherVersionOf_eq_false_of_agree p p rfl rfl rfl, ?_, ?_⟩
  · intro hpk hmem
    exact key ident files refName refName hmem hpk
      (isOtherVersionOf_eq_false_of_agree _ _ rfl rfl rfl)
  · intro n hmem hpk h1 h2 h3
    exact key ident files refName n hmem hpk
      (isOtherVersionOf_eq_false_of_agree _ _ h1 h2 h3)

/-- Witness for C1: the single file of a one-package directory is its own
isolate reference and survives. -/
theorem c1_witness :
    "foo-1.0-1-x86_64.pkg.tar" ∈
      isolate constIdent "foo-1.0-1-x86_64.pkg.tar" ["foo-1.0-1-x86_64.pkg.tar"] :=
  (c1_isolate_keeps_reference constIdent ["foo-1.0-1-x86_64.pkg.tar"]
    "foo-1.0-1-x86_64.pkg.tar").2.1 (by decide) (by decide)

/-- The copy stage neither touches the gpg counter beyond the requested
signing nor the repo-add log. -/
theorem copyPkg_gpg_inserts (env : ExtEnv) (pkgName : String) (s : Bool) (st : St) :
    (copyPkg env pkgName s st).1.gpgCalls = st.gpgCalls + (if s then 1 else 0) ∧
    (copyPkg env pkgName s st).1.inserts = st.inserts := by
  unfold copyPkg
  cases s <;> cases hg : env.gpgOk <;> simp [hg] <;> split <;> simp

/-- The copy stage only grows the directory, and only by the package and
its signature names. -/
theorem copyPkg_files (env : ExtEnv) (pkgName : String) (s : Bool) (st : St) :
    (∀ f, f ∈ st.files → f ∈ (copyPkg env pkgName s st).1.files) ∧
    (∀ f, f ∈ (copyPkg env pkgName s st).1.files →
      f = pkgName ∨ f = sigName pkgName ∨ f ∈ st.files) := by
  unfold copyPkg
  cases s <;> cases hg : env.gpgOk <;> simp [hg]
  all_goals try split
  all_goals try simp [mem_insertName]
  all_goals tauto

/-- C2 (amended): the effective signing flag of `add` is the disjunction
`sign or self.sign`: gpg is invoked exactly when the disjunction holds,
and every repo-add invocation recorded by the call carries it; an
explicit `sign=False` therefore defers to the repository's configured
default instead of overriding it. -/
theorem c2_effective_sign :
    ∀ (env : ExtEnv) (ident : String → PackageInfo) (repo : Repository)
      (pkgName : String) (sgn clean : Bool) (st : St),
      ((add env ident repo pkgName sgn clean st).1.gpgCalls =
        st.gpgCalls + (if sgn || repo.sign then 1 else 0)) ∧
      (∀ b ∈ (add env ident repo pkgName sgn clean st).1.inserts,
        b ∈ st.inserts ∨ b = (sgn || repo.sign)) := by
  intro env ident repo pkgName sgn clean st
  have h1 := copyPkg_gpg_inserts env pkgName (sgn || repo.sign) st
  unfold add
  rcases hcp : copyPkg env pkgName (sgn || repo.sign) st with ⟨st1, e⟩
  rw [hcp] at h1
  rcases e with _ | e
  · have hg' : st1.gpgCalls = st.gpgCalls + (if sgn || repo.sign then 1 else 0) := h1.1
    have hi' : st1.inserts = st.inserts := h1.2
    have key : ∀ b, b ∈ st1.inserts ++ [sgn || repo.sign] →
        b ∈ st.inserts ∨ b = (sgn || repo.sign) := by
      intro b hb
      rcases List.mem_append.mp hb with h | h
      · rw [hi'] at h
        exact Or.inl h
      · exact Or.inr (List.mem_singleton.mp h)
    cases hra : env.repoAddOk <;> cases clean <;>
      exact ⟨hg', fun b hb => key b hb⟩
  · exact ⟨h1.1, fun b hb => Or.inl (h1.2 ▸ hb)⟩

/-- Counterexample for C2: with the repository's configured policy
`sign = True`, `add(package, sign=False, ...)` still signs — gpg is
invoked once and the single repo-add invocation carries the sign
flag (`--sign`), so the explicit `False` override does not win. -/
theorem c2_counterexample :
    (add ⟨true, true⟩ constIdent ⟨"repo", ".db.tar.zst", true, none⟩
      "foo-1.0-1-x86_64.pkg.tar" false false ⟨[], false, 0, []⟩).1.gpgCalls = 1 ∧
    (add ⟨true, true⟩ constIdent ⟨"repo", ".db.tar.zst", true, none⟩
      "foo-1.0-1-x86_64.pkg.tar" false false ⟨[], false, 0, []⟩).1.inserts = [true] := by
  decide

/-- Witness for C2 at a concrete signing run. -/
theorem c2_witness :
    ((add ⟨true, true⟩ constIdent ⟨"repo", ".db.tar.zst", true, none⟩
        "foo-1.0-1-x86_64.pkg.tar" false false ⟨[], false, 0, []⟩).1.gpgCalls =
      (⟨[], false, 0, []⟩ : St).gpgCalls + (if false || true then 1 else 0)) ∧
    (true ∈ (⟨[], false, 0, []⟩ : St).inserts ∨ true = (false || true)) :=
  ⟨(c2_effective_sign ⟨true, true⟩ constIdent ⟨"repo", ".db.tar.zst", true, none⟩
      "foo-1.0-1-x86_64.pkg.tar" false false ⟨[], false, 0, []⟩).1,
    (c2_effective_sign ⟨true, true⟩ constIdent ⟨"repo", ".db.tar.zst", true, none⟩
      "foo-1.0-1-x86_64.pkg.tar" false false ⟨[], false, 0, []⟩).2 true (by decide)⟩

/-- C3: evaluation at the failing input — an empty repository directory,
a package file with no pre-existing detached signature, repository
policy `sign = False`: `add(pkg, sign=False, clean=True)` raises
`FileNotFoundError` from `copy2` on the missing signature file instead
of completing; the package file was copied but `repo-add` is never
invoked. -/
theorem c3_add_missing_sig_errors :
    add ⟨true, true⟩ constIdent ⟨"repo", ".db.tar.zst", false, none⟩
      "foo-1.0-1-x86_64.pkg.tar.zst" false true ⟨[], false, 0, []⟩ =
    (⟨["foo-1.0-1-x86_64.pkg.tar.zst"], false, 0, []⟩, some .fileNotFound) := by
  decide

/-- Counterexample for C4: a `repo-add` subprocess failure while adding
the first of two packages aborts the whole run — the loop does not catch
it, the second package is never copied, and no failure count is
produced. -/
theorem c4_counterexample :
    addPackages ⟨true, false⟩ constIdent [⟨"repo", ".db.tar.zst", false, none⟩]
      ["a-1.0-1-any.pkg.tar", "b-1.0-1-any.pkg.tar"] false false ⟨[], true, 0, []⟩ =
    (⟨["a-1.0-1-any.pkg.tar", "a-1.0-1-any.pkg.tar.sig"], true, 0, [false]⟩, 0,
      some .calledProcess) := by
  decide

/-- C4 (amended): the per-package loop catches only `KeyError` and
`KeyboardInterrupt`; any other failure while adding one package (a
failing subprocess or a missing file) propagates out of the loop,
aborting the run with the failed package's partial state and leaving the
remaining packages unprocessed. -/
theorem c4_uncaught_error_aborts_loop :
    ∀ (env : ExtEnv) (ident : String → PackageInfo) (repos : List Repository)
      (p : String) (ps : List String) (sgn clean : Bool) (st : St) (e : Err),
      (addPackage env ident repos p sgn clean st).2 = some e →
      e ≠ .keyError → e ≠ .keyboardInterrupt →
      addPackages env ident repos (p :: ps) sgn clean st =
        ((addPackage env ident repos p sgn clean st).1, 0, some e) := by
  intro env ident repos p ps sgn clean st e he hk hi
  unfold addPackages
  rcases hap : addPackage env ident repos p sgn clean st with ⟨st1, e'⟩
  rw [hap] at he
  simp at he
  subst he
  cases e with
  | keyError => exact absurd rfl hk
  | keyboardInterrupt => exact absurd rfl hi
  | calledProcess => rfl
  | fileNotFound => rfl

/-- Witness for C4 at a concrete failing repo-add. -/
theorem c4_witness :
    addPackages ⟨true, false⟩ constIdent [⟨"repo", ".db.tar.zst", false, none⟩]
      ["c-1.0-1-any.pkg.tar", "d-1.0-1-any.pkg.tar"] false false ⟨[], true, 0, []⟩ =
    ((addPackage ⟨true, false⟩ constIdent [⟨"repo", ".db.tar.zst", false, none⟩]
        "c-1.0-1-any.pkg.tar" false false ⟨[], true, 0, []⟩).1, 0, some .calledProcess) :=
  c4_uncaught_error_aborts_loop ⟨true, false⟩ constIdent
    [⟨"repo", ".db.tar.zst", false, none⟩] "c-1.0-1-any.pkg.tar" ["d-1.0-1-any.pkg.tar"]
    false false ⟨[], true, 0, []⟩ .calledProcess (by decide) (by decide) (by decide)

/-- C6: evaluation of the failing behavior — the name
`foo-1.0-1-x86_64.pkg.tar.zst` matches the specified grammar (pkgbase
`foo`, version `1.0`, build 1, architecture `x86_64`, compression `zst`),
yet `get_package_info` yields no identity; indeed it yields an identity
for no string whatsoever, since the `re.Match` unpacking always
raises. -/
theorem c6_parse_never_succeeds :
    specIsPackage "foo-1.0-1-x86_64.pkg.tar.zst" = true ∧
    specParse "foo-1.0-1-x86_64.pkg.tar.zst" =
      some ⟨"foo", "1.0", some 1, "x86_64", some "zst"⟩ ∧
    (∀ s : String, getPackageInfo s = none) := by
  refine ⟨by decide, by decide, ?_⟩
  intro s
  unfold getPackageInfo
  cases rsplit3 s.data with
  | none => rfl
  | some q =>
    obtain ⟨p1, p2, b, p4⟩ := q
    rcases hpy : pyInt? b with _ | z <;> simp [hpy]

/-- C7: evaluation at the failing input — a directory containing the
single grammar-matching compressed file `foo-1.0-1-x86_64.pkg.tar.zst`:
the `packages` enumeration yields nothing, because `REGEX`'s compression
group only matches the literal text `.xz,gz,zst,bz2,lzop`; an
uncompressed package is yielded while a non-matching entry is
skipped. -/
theorem c7_packages_misses_compressed :
    specIsPackage "bar-2.0-3-i686.pkg.tar.zst" = true ∧
    packagesList ["bar-2.0-3-i686.pkg.tar.zst"] = [] ∧
    packagesList ["bar-2.0-3-i686.pkg.tar", "README"] = ["bar-2.0-3-i686.pkg.tar"] := by
  decide

/-- Counterexample for C9: with the directory containing only
`foo-bar-1.0-1-x86_64.pkg.tar`, whose pkgbase under the grammar is
`foo-bar`, `packages_for_base("foo")` yields it — the glob
`foo-*.pkg.tar*` is a plain filename prefix match. -/
theorem c9_counterexample :
    packagesForBase "foo" ["foo-bar-1.0-1-x86_64.pkg.tar"] =
      ["foo-bar-1.0-1-x86_64.pkg.tar"] ∧
    (specParse "foo-bar-1.0-1-x86_64.pkg.tar").map SpecId.pkgbase = some "foo-bar" := by
  decide

/-- C9 (amended): `packages_for_base(b)` yields exactly the directory
entries whose name starts with `b` followed by a hyphen, contains
`.pkg.tar` thereafter, and matches the package regex — a filename prefix
selection, so the packages of every pkgbase extending `b + "-"` are
yielded as well. -/
theorem c9_packages_for_base_iff :
    ∀ (base : String) (files : List String) (n : String),
      n ∈ packagesForBase base files ↔
        (n ∈ files ∧ baseGlob base n = true ∧ isPackageModern n = true) := by
  intro base files n
  unfold packagesForBase
  rw [List.mem_filter, Bool.and_eq_true]

/-- With `clean=False`, `add` only grows the directory, and only by the
package name, its signature name and the database name. -/
theorem add_files_no_clean (env : ExtEnv) (ident : String → PackageInfo)
    (repo : Repository) (pkgName : String) (sgn : Bool) (st : St) :
    (∀ f, f ∈ st.files → f ∈ (add env ident repo pkgName sgn false st).1.files) ∧
    (∀ f, f ∈ (add env ident repo pkgName sgn false st).1.files →
      f = pkgName ∨ f = sigName pkgName ∨ f = repo.database ∨ f ∈ st.files) := by
  have hcf := copyPkg_files env pkgName (sgn || repo.sign) st
  unfold add
  rcases hcp : copyPkg env pkgName (sgn || repo.sign) st with ⟨st1, e⟩
  rw [hcp] at hcf
  obtain ⟨hmono, hsub⟩ := hcf
  rcases e with _ | e
  · cases hra : env.repoAddOk
    · simp only [hra, Bool.not_false, if_true]
      refine ⟨fun f hf => hmono f hf, fun f hf => ?_⟩
      rcases hsub f hf with h | h | h <;> tauto
    · simp only [hra, Bool.not_true, Bool.false_eq_true, if_false, if_neg]
      refine ⟨fun f hf => ?_, fun f hf => ?_⟩
      · exact (mem_insertName f repo.database st1.files).mpr (Or.inr (hmono f hf))
      · rcases (mem_insertName f repo.database st1.files).mp hf with h | h
        · tauto
        · rcases hsub f h with h' | h' | h' <;> tauto
  · refine ⟨fun f hf => hmono f hf, fun f hf => ?_⟩
    rcases hsub f hf with h | h | h <;> tauto

/-- C10: with `clean=False`, `add` deletes nothing from the base
directory — every file present before is present after — and every file
other than the copied package, its signature file and the database file
is present afterwards exactly when it was present before. -/
theorem c10_add_no_clean_frame :
    ∀ (env : ExtEnv) (ident : String → PackageInfo) (repo : Repository)
      (pkgName : String) (sgn : Bool) (st : St),
      (∀ f, f ∈ st.files → f ∈ (add env ident repo pkgName sgn false st).1.files) ∧
      (∀ f, f ≠ pkgName → f ≠ sigName pkgName → f ≠ repo.database →
        (f ∈ (add env ident repo pkgName sgn false st).1.files ↔ f ∈ st.files)) := by
  intro env ident repo pkgName sgn st
  have h := add_files_no_clean env ident repo pkgName sgn st
  refine ⟨h.1, ?_⟩
  intro f h1 h2 h3
  constructor
  · intro hf
    rcases h.2 f hf with hh | hh | hh | hh
    · exact absurd hh h1
    · exact absurd hh h2
    · exact absurd hh h3
    · exact hh
  · exact h.1 f

/-- Witness for C10: a concrete unrelated file survives an `add` with
`clean=False` unchanged. -/
theorem c10_witness :
    ("other.txt" ∈ (add ⟨true, true⟩ constIdent ⟨"repo", ".db.tar.zst", true, none⟩
        "foo-1.0-1-x86_64.pkg.tar" false false ⟨["other.txt"], false, 0, []⟩).1.files) ∧
    ("other.txt" ∈ (add ⟨true, true⟩ constIdent ⟨"repo", ".db.tar.zst", true, none⟩
        "foo-1.0-1-x86_64.pkg.tar" false false ⟨["other.txt"], false, 0, []⟩).1.files ↔
      "other.txt" ∈ (⟨["other.txt"], false, 0, []⟩ : St).files) :=
  ⟨(c10_add_no_clean_frame ⟨true, true⟩ constIdent ⟨"repo", ".db.tar.zst", true, none⟩
      "foo-1.0-1-x86_64.pkg.tar" false ⟨["other.txt"], false, 0, []⟩).1 "other.txt" (by decide),
    (c10_add_no_clean_frame ⟨true, true⟩ constIdent ⟨"repo", ".db.tar.zst", true, none⟩
      "foo-1.0-1-x86_64.pkg.tar" false ⟨["other.txt"], false, 0, []⟩).2 "other.txt"
      (by decide) (by decide) (by decide)⟩

end Repotool
